import Mathlib

/-!
Shallow embedding of TrenchBroom's entity definition resolution core
(`EntityDefinitionParser.cpp`): the redundancy filter, the super class
selector, the cycle guarded inheritance resolver, the attribute merge
policy, and the definition materializer.

Machine integers in the source stay well within `int` range (bit masks up
to `1 << 23`, small kind masks), so they are embedded as `Int`/`Nat`
without wrap-around. Floating point components (colors, bounding boxes)
are only stored, copied and compared by the code under consideration,
never computed with, so their components are embedded as `Int`.
-/

set_option autoImplicit false

namespace TB

/-- Opaque source position carried through for diagnostics
(`FileLocation` in the source). -/
abbrev FileLocation := Nat

/-- A color; components are only stored and copied by this core. -/
structure Color where
  r : Int
  g : Int
  b : Int
  a : Int
deriving DecidableEq, Repr

/-- A 3d vector; components are only stored and copied by this core. -/
structure Vec3 where
  x : Int
  y : Int
  z : Int
deriving DecidableEq, Repr

/-- An axis aligned bounding box (`vm::bbox3d`). -/
structure Bbox3 where
  min : Vec3
  max : Vec3
deriving DecidableEq, Repr

/-- `static constexpr auto DefaultSize = vm::bbox3d(-8, +8);` -/
def DefaultSize : Bbox3 := ⟨⟨-8, -8, -8⟩, ⟨8, 8, 8⟩⟩

/-- A model definition: an expression plus an `append` operation that
concatenates alternative expressions without discarding either side.
The expressions themselves are opaque to this core. -/
structure ModelDefinition where
  expressions : List Nat
deriving DecidableEq, Repr

/-- `ModelDefinition::append` concatenates the alternatives. -/
def ModelDefinition.append (m other : ModelDefinition) : ModelDefinition :=
  ⟨m.expressions ++ other.expressions⟩

/-- A decal definition; same structure as a model definition. -/
structure DecalDefinition where
  expressions : List Nat
deriving DecidableEq, Repr

/-- `DecalDefinition::append` concatenates the alternatives. -/
def DecalDefinition.append (m other : DecalDefinition) : DecalDefinition :=
  ⟨m.expressions ++ other.expressions⟩

/-- `mdl::PropertyDefinitionType` (closed set of property value kinds). -/
inductive PropertyDefinitionType where
  | TargetSourceProperty
  | TargetDestinationProperty
  | StringProperty
  | BooleanProperty
  | IntegerProperty
  | FloatProperty
  | ChoiceProperty
  | FlagsProperty
  | UnknownProperty
deriving DecidableEq, Repr

/-- One option of a flags property definition: a bit value plus
descriptions and a default marker (`FlagsPropertyOption`). -/
structure FlagsPropertyOption where
  value : Int
  shortDescription : String
  longDescription : String
  isDefault : Bool
deriving DecidableEq, Repr

/-- A property definition. The source models the value kinds as a class
hierarchy; here the common fields are flattened and `options` carries the
payload of a flags property (it is empty for every other kind). -/
structure PropertyDefinition where
  key : String
  type : PropertyDefinitionType
  shortDescription : String
  longDescription : String
  readOnly : Bool
  options : List FlagsPropertyOption
deriving DecidableEq, Repr

/-- `FlagsPropertyDefinition::option`: the first option with the given
bit value, if any. -/
def flagsOption (opts : List FlagsPropertyOption) (value : Int) :
    Option FlagsPropertyOption :=
  opts.find? (fun o => o.value == value)

/-- `mdl::EntityPropertyKeys::Spawnflags`, the reserved key of the
spawnflags property (defined outside this excerpt; its exact text is
irrelevant to the resolution logic). -/
def Spawnflags : String := "spawnflags"

/-- `EntityDefinitionClassType`. -/
inductive EntityDefinitionClassType where
  | PointClass
  | BrushClass
  | BaseClass
deriving DecidableEq, Repr

/-- `EntityDefinitionClassInfo`: one declared entity class, as produced
by the upstream parser. -/
structure EntityDefinitionClassInfo where
  type : EntityDefinitionClassType
  location : FileLocation
  name : String
  description : Option String
  color : Option Color
  size : Option Bbox3
  modelDefinition : Option ModelDefinition
  decalDefinition : Option DecalDefinition
  propertyDefinitions : List PropertyDefinition
  superClasses : List String
deriving DecidableEq, Repr

/-- One diagnostic reported to the `ParserStatus` sink. -/
inductive Diagnostic where
  | warn (location : FileLocation) (message : String)
  | error (location : FileLocation) (message : String)
deriving DecidableEq, Repr

/-- The 24-iteration loop of `mergeAttributes`: for each bit value
`1 << i`, the inheriting class's option is taken when it defined one and
the super class's option otherwise, the chosen options being appended in
bit order. -/
def mergeSpawnflagOptions (classOpts baseOpts : List FlagsPropertyOption) :
    List FlagsPropertyOption :=
  (List.range 24).foldl (fun acc i =>
    let baseclassFlag := flagsOption baseOpts (2 ^ i)
    let classFlag := flagsOption classOpts (2 ^ i)
    match baseclassFlag, classFlag with
    | some b, none => acc ++ [b]
    | _, some c => acc ++ [c]
    | _, _ => acc) []

/-- The contribution of one bit position to the merged spawnflags
options: the inheriting class's option if present, else the super
class's, else nothing. -/
def spawnflagSlot (classOpts baseOpts : List FlagsPropertyOption)
    (i : Nat) : List FlagsPropertyOption :=
  match flagsOption baseOpts (2 ^ i), flagsOption classOpts (2 ^ i) with
  | some b, none => [b]
  | _, some c => [c]
  | _, _ => []

/-- `mergeAttributes`: merges a same-key property of a super class into
the inheriting class's property. Only spawnflags are merged: both sides
must be flags typed with the reserved spawnflags key; the result takes,
for each of the 24 bit values `1 << 0` to `1 << 23`, the inheriting
class's option if it defined one and the super class's option otherwise.
Every other pair yields `none` (the C++ function returns `nullptr`). -/
def mergeAttributes (inheritingClassAttribute superClassAttribute :
    PropertyDefinition) : Option PropertyDefinition :=
  if superClassAttribute.type = PropertyDefinitionType.FlagsProperty
      ∧ inheritingClassAttribute.type = PropertyDefinitionType.FlagsProperty
      ∧ superClassAttribute.key = Spawnflags
      ∧ inheritingClassAttribute.key = Spawnflags then
    some { key := inheritingClassAttribute.key
           type := PropertyDefinitionType.FlagsProperty
           shortDescription := ""
           longDescription := ""
           readOnly := false
           options := mergeSpawnflagOptions inheritingClassAttribute.options
             superClassAttribute.options }
  else
    none

/-- Replaces the first property with the given key (the slot found by
`std::ranges::find_if` in `inheritAttributes`). -/
def replaceFirstKey : List PropertyDefinition → String → PropertyDefinition →
    List PropertyDefinition
  | [], _, _ => []
  | a :: rest, k, m =>
    if a.key = k then m :: rest else a :: replaceFirstKey rest k m

/-- The property loop of `inheritAttributes`: each super class property
is appended when its key is absent, merged via `mergeAttributes` when the
merge applies, and discarded otherwise. -/
def inheritPropertyDefinitions
    (inheritingProps superProps : List PropertyDefinition) :
    List PropertyDefinition :=
  superProps.foldl (fun acc attr =>
    match acc.find? (fun a => a.key == attr.key) with
    | none => acc ++ [attr]
    | some existing =>
      match mergeAttributes existing attr with
      | some mergedAttribute => replaceFirstKey acc attr.key mergedAttribute
      | none => acc) inheritingProps

/-- `inheritAttributes`: copies the attributes of a super class into the
inheriting class. Description, color and size are copied only when unset;
properties follow `inheritPropertyDefinitions`; model and decal
definitions are taken wholesale when absent and appended otherwise. -/
def inheritAttributes
    (inheritingClass superClass : EntityDefinitionClassInfo) :
    EntityDefinitionClassInfo :=
  { inheritingClass with
    description :=
      match inheritingClass.description with
      | none => superClass.description
      | some d => some d
    color :=
      match inheritingClass.color with
      | none => superClass.color
      | some c => some c
    size :=
      match inheritingClass.size with
      | none => superClass.size
      | some s => some s
    propertyDefinitions :=
      inheritPropertyDefinitions
        inheritingClass.propertyDefinitions superClass.propertyDefinitions
    modelDefinition :=
      match inheritingClass.modelDefinition, superClass.modelDefinition with
      | none, s => s
      | some m, none => some m
      | some m, some s => some (m.append s)
    decalDefinition :=
      match inheritingClass.decalDefinition, superClass.decalDefinition with
      | none, s => s
      | some m, none => some m
      | some m, some s => some (m.append s) }

/-- The kind bit used by the redundancy filter
(`1 << static_cast<int>(type)`). -/
def getMask : EntityDefinitionClassType → Nat
  | EntityDefinitionClassType.PointClass => 1
  | EntityDefinitionClassType.BrushClass => 2
  | EntityDefinitionClassType.BaseClass => 4

/-- The loop of `filterRedundantClasses`; `seen` maps a class name to the
bitmask of kinds already accepted under that name. -/
def filterRedundantClassesGo (seen : String → Nat) :
    List EntityDefinitionClassInfo →
    List EntityDefinitionClassInfo × List Diagnostic
  | [] => ([], [])
  | classInfo :: rest =>
    let seenMask := seen classInfo.name
    let classMask := getMask classInfo.type
    if classMask &&& seenMask ≠ 0 then
      let (r, d) := filterRedundantClassesGo seen rest
      (r, Diagnostic.warn classInfo.location
            ("Duplicate class info '" ++ classInfo.name ++ "'") :: d)
    else if seenMask &&& getMask EntityDefinitionClassType.BaseClass ≠ 0
        ∨ (seenMask ≠ 0
            ∧ classMask &&& getMask EntityDefinitionClassType.BaseClass ≠ 0) then
      let (r, d) := filterRedundantClassesGo seen rest
      (r, Diagnostic.warn classInfo.location
            ("Redundant class info '" ++ classInfo.name ++ "'") :: d)
    else
      let seenUpd := fun n =>
        if n = classInfo.name then seenMask ||| classMask else seen n
      let (r, d) := filterRedundantClassesGo seenUpd rest
      (classInfo :: r, d)

/-- `filterRedundantClasses`: drops duplicate and redundant classes,
preserving order and reporting a warning for each dropped record. -/
def filterRedundantClasses (classInfos : List EntityDefinitionClassInfo) :
    List EntityDefinitionClassInfo × List Diagnostic :=
  filterRedundantClassesGo (fun _ => 0) classInfos

/-- The `findClassInfos` lookup of `resolveInheritance`: all filtered
classes with the given name, in order. -/
def findClassInfos (classes : List EntityDefinitionClassInfo)
    (name : String) : List EntityDefinitionClassInfo :=
  classes.filter (fun c => c.name == name)

/-- `findClassInfoWithType`: the first candidate with the given type. -/
def findClassInfoWithType (classes : List EntityDefinitionClassInfo)
    (type : EntityDefinitionClassType) : Option EntityDefinitionClassInfo :=
  classes.find? (fun c => c.type == type)

/-- `selectSuperClass`: a single candidate is taken unconditionally;
among several, a candidate with the inheriting class's type is preferred,
then (for non base inheriting classes) a BaseClass candidate; otherwise
no candidate is selected. -/
def selectSuperClass (inheritingType : EntityDefinitionClassType)
    (potentialSuperClasses : List EntityDefinitionClassInfo) :
    Option EntityDefinitionClassInfo :=
  if potentialSuperClasses.length = 1 then
    potentialSuperClasses.head?
  else if potentialSuperClasses.length > 1 then
    match findClassInfoWithType potentialSuperClasses inheritingType with
    | some classInfo => some classInfo
    | none =>
      if inheritingType ≠ EntityDefinitionClassType.BaseClass then
        findClassInfoWithType potentialSuperClasses
          EntityDefinitionClassType.BaseClass
      else
        none
  else
    none

mutual

/-- `inheritFromAndRecurse`: when the super class is already on the
current path, report the cycle and stop; otherwise merge its attributes
and recurse into its own super classes with the super class added to the
path (and removed again on return, which the functional `visited`
argument models implicitly). The `fuel` argument bounds the recursion
depth; the top level entry point supplies `classes.length + 1`, which the
path discipline can never exhaust (every successful descent adds a
distinct name of a class in `classes` to `visited`). -/
def inheritFromAndRecurse (classes : List EntityDefinitionClassInfo)
    (fuel : Nat) (inheritingClass superClass : EntityDefinitionClassInfo)
    (visited : List String) :
    EntityDefinitionClassInfo × List Diagnostic :=
  match fuel with
  | 0 => (inheritingClass, [])
  | fuel + 1 =>
    if superClass.name ∈ visited then
      (inheritingClass,
       [Diagnostic.error inheritingClass.location
          "Entity definition class hierarchy contains a cycle"])
    else
      findSuperClassesAndInheritFrom classes fuel
        (inheritAttributes inheritingClass superClass) superClass
        (superClass.name :: visited)
termination_by (fuel, 0, 0)

/-- `findSuperClassesAndInheritFrom`: resolves each declared super class
name of `classWithSuperClasses` in declaration order, inheriting from the
selected candidate or reporting a missing super class. -/
def findSuperClassesAndInheritFrom (classes : List EntityDefinitionClassInfo)
    (fuel : Nat) (inheritingClass classWithSuperClasses :
      EntityDefinitionClassInfo) (visited : List String) :
    EntityDefinitionClassInfo × List Diagnostic :=
  goSuperClasses classes fuel inheritingClass classWithSuperClasses.location
    classWithSuperClasses.superClasses visited
termination_by (fuel, 1, classWithSuperClasses.superClasses.length + 1)

/-- The loop over the declared super class names inside
`findSuperClassesAndInheritFrom`. -/
def goSuperClasses (classes : List EntityDefinitionClassInfo) (fuel : Nat)
    (inheritingClass : EntityDefinitionClassInfo) (location : FileLocation)
    (superClassNames : List String) (visited : List String) :
    EntityDefinitionClassInfo × List Diagnostic :=
  match superClassNames with
  | [] => (inheritingClass, [])
  | nextSuperClassName :: rest =>
    match selectSuperClass inheritingClass.type
        (findClassInfos classes nextSuperClassName) with
    | some nextSuperClass =>
      let r1 :=
        inheritFromAndRecurse classes fuel inheritingClass nextSuperClass visited
      let r2 := goSuperClasses classes fuel r1.1 location rest visited
      (r2.1, r1.2 ++ r2.2)
    | none =>
      let r :=
        goSuperClasses classes fuel inheritingClass location rest visited
      (r.1, Diagnostic.error location
          ("No matching super class found for '" ++ nextSuperClassName ++ "'")
        :: r.2)
termination_by (fuel, 1, superClassNames.length)

end

/-- The single class `resolveInheritance` (template overload): resolves
the inheritance hierarchy induced by one inheriting class, starting with
an empty path. -/
def resolveInheritanceClass (classes : List EntityDefinitionClassInfo)
    (inheritingClass : EntityDefinitionClassInfo) :
    EntityDefinitionClassInfo × List Diagnostic :=
  findSuperClassesAndInheritFrom classes (classes.length + 1)
    inheritingClass inheritingClass []

/-- The public `resolveInheritance`: filters redundant classes, then
resolves every non BaseClass entry against the filtered list. -/
def resolveInheritance (classInfos : List EntityDefinitionClassInfo) :
    List EntityDefinitionClassInfo × List Diagnostic :=
  let (filteredClassInfos, d0) := filterRedundantClasses classInfos
  (filteredClassInfos.filter
      (fun c => c.type ≠ EntityDefinitionClassType.BaseClass)).foldl
    (fun acc c =>
      let r := resolveInheritanceClass filteredClassInfos c
      (acc.1 ++ [r.1], acc.2 ++ r.2))
    ([], d0)

/-- A materialized entity definition (`mdl::EntityDefinition`): a point
definition keeps all resolved data, a brush definition keeps only name,
color, description and properties. -/
inductive EntityDefinition where
  | point (name : String) (color : Color) (size : Bbox3)
      (description : String) (propertyDefinitions : List PropertyDefinition)
      (modelDefinition : ModelDefinition) (decalDefinition : DecalDefinition)
  | brush (name : String) (color : Color) (description : String)
      (propertyDefinitions : List PropertyDefinition)
deriving DecidableEq, Repr

/-- `createDefinition`: materializes one resolved class, applying the
defaults for unset optional fields; a BaseClass yields no definition. -/
def createDefinition (classInfo : EntityDefinitionClassInfo)
    (defaultEntityColor : Color) : Option EntityDefinition :=
  let name := classInfo.name
  let color := classInfo.color.getD defaultEntityColor
  let size := classInfo.size.getD DefaultSize
  let description := classInfo.description.getD ""
  let propertyDefinitions := classInfo.propertyDefinitions
  let modelDefinition := classInfo.modelDefinition.getD ⟨[]⟩
  let decalDefinition := classInfo.decalDefinition.getD ⟨[]⟩
  match classInfo.type with
  | EntityDefinitionClassType.PointClass =>
    some (EntityDefinition.point name color size description
      propertyDefinitions modelDefinition decalDefinition)
  | EntityDefinitionClassType.BrushClass =>
    some (EntityDefinition.brush name color description propertyDefinitions)
  | EntityDefinitionClassType.BaseClass => none

/-- `createDefinitions`: the full pipeline — filter, resolve (which
filters again, a no-op on an already filtered list), materialize. -/
def createDefinitions (classInfos : List EntityDefinitionClassInfo)
    (defaultEntityColor : Color) :
    List EntityDefinition × List Diagnostic :=
  let f := filterRedundantClasses classInfos
  let r := resolveInheritance f.1
  ((r.1.filterMap (fun c => createDefinition c defaultEntityColor)),
   f.2 ++ r.2)

/-- `EntityDefinitionParser::parseDefinitions`: runs the upstream parser
(abstracted as its result) and materializes the definitions; an upstream
exception is propagated unchanged as a wrapped failure. -/
def parseDefinitions
    (parseClassInfos : Except String (List EntityDefinitionClassInfo))
    (defaultEntityColor : Color) :
    Except String (List EntityDefinition) × List Diagnostic :=
  match parseClassInfos with
  | Except.error e => (Except.error e, [])
  | Except.ok classInfos =>
    let r := createDefinitions classInfos defaultEntityColor
    (Except.ok r.1, r.2)

end TB

namespace TB

/-- The bit index of a class kind (`static_cast<int>(type)`), so that
`getMask t = 2 ^ classTypeBit t`. -/
def classTypeBit : EntityDefinitionClassType → Nat
  | EntityDefinitionClassType.PointClass => 0
  | EntityDefinitionClassType.BrushClass => 1
  | EntityDefinitionClassType.BaseClass => 2

/-- The bitmask of kinds accepted under a given name by a list of
accepted records; this is the value the `seen` map of
`filterRedundantClasses` holds for that name. -/
def seenOf : List EntityDefinitionClassInfo → String → Nat
  | [], _ => 0
  | a :: rest, n =>
    (if a.name = n then getMask a.type else 0) ||| seenOf rest n

/-- The redundancy filter as the specification states it, phrased over
the list of records accepted so far instead of the bitmask map: a record
is dropped with a duplicate warning when a record with the same (name,
type) pair was accepted, dropped with a redundancy warning when a
BaseClass with its name was accepted or it is itself a BaseClass and any
record with its name was accepted, and appended otherwise. -/
def filterRedundantClassesSpecGo (accepted : List EntityDefinitionClassInfo) :
    List EntityDefinitionClassInfo →
    List EntityDefinitionClassInfo × List Diagnostic
  | [] => ([], [])
  | c :: rest =>
    if ∃ a ∈ accepted, a.name = c.name ∧ a.type = c.type then
      let (r, d) := filterRedundantClassesSpecGo accepted rest
      (r, Diagnostic.warn c.location
            ("Duplicate class info '" ++ c.name ++ "'") :: d)
    else if (∃ a ∈ accepted,
          a.name = c.name ∧ a.type = EntityDefinitionClassType.BaseClass)
        ∨ (c.type = EntityDefinitionClassType.BaseClass
            ∧ ∃ a ∈ accepted, a.name = c.name) then
      let (r, d) := filterRedundantClassesSpecGo accepted rest
      (r, Diagnostic.warn c.location
            ("Redundant class info '" ++ c.name ++ "'") :: d)
    else
      let (r, d) := filterRedundantClassesSpecGo (accepted ++ [c]) rest
      (c :: r, d)

/-- The specification-side redundancy filter, starting from no accepted
records. -/
def filterRedundantClassesSpec (classInfos : List EntityDefinitionClassInfo) :
    List EntityDefinitionClassInfo × List Diagnostic :=
  filterRedundantClassesSpecGo [] classInfos

/-- What one inheriting-class property slot becomes after one super
class is merged in: replaced by the spawnflags merge when the super has
a same-key property and the merge applies, kept unmodified otherwise. -/
def mergedSlot (supProps : List PropertyDefinition)
    (a : PropertyDefinition) : PropertyDefinition :=
  match supProps.find? (fun s => s.key == a.key) with
  | none => a
  | some s =>
    match mergeAttributes a s with
    | some m => m
    | none => a

/-! ### Helper lemmas -/

theorem find?_eq_some_of_exists {α : Type} (p : α → Bool) (l : List α)
    (h : ∃ x ∈ l, p x) : ∃ c, l.find? p = some c ∧ c ∈ l ∧ p c := by
  have hs : (l.find? p).isSome := List.find?_isSome.mpr h
  rcases Option.isSome_iff_exists.mp hs with ⟨c, hc⟩
  exact ⟨c, hc, List.mem_of_find?_eq_some hc, List.find?_some hc⟩

/-- A minimal class record used to instantiate theorems on concrete
inputs. -/
def sampleClass (t : EntityDefinitionClassType) (loc : FileLocation)
    (name : String) (desc : Option String) (supers : List String) :
    EntityDefinitionClassInfo :=
  { type := t, location := loc, name := name, description := desc,
    color := none, size := none, modelDefinition := none,
    decalDefinition := none, propertyDefinitions := [],
    superClasses := supers }

def samplePoint : EntityDefinitionClassInfo :=
  sampleClass EntityDefinitionClassType.PointClass 0 "p" none []

def sampleBrush : EntityDefinitionClassInfo :=
  sampleClass EntityDefinitionClassType.BrushClass 1 "p" none []

def sampleBase : EntityDefinitionClassInfo :=
  sampleClass EntityDefinitionClassType.BaseClass 2 "p" none []

/-- Demo records exercising the recoverable error paths: a duplicated
class, a class with an unresolvable super class, and a two-class
cycle. -/
def demoA : EntityDefinitionClassInfo :=
  sampleClass EntityDefinitionClassType.PointClass 0 "a" none []

def demoM : EntityDefinitionClassInfo :=
  sampleClass EntityDefinitionClassType.PointClass 1 "m" none ["nosuch"]

def demoCycA : EntityDefinitionClassInfo :=
  sampleClass EntityDefinitionClassType.PointClass 2 "c" none ["d"]

def demoCycB : EntityDefinitionClassInfo :=
  sampleClass EntityDefinitionClassType.BaseClass 3 "d" none ["c"]

def demoList : List EntityDefinitionClassInfo :=
  [demoA, demoA, demoM, demoCycA, demoCycB]

/-- Concrete chain used to instantiate C1: X is unset, Y sets
description and size, Z sets description, color and size. -/
def chainX : EntityDefinitionClassInfo :=
  sampleClass EntityDefinitionClassType.PointClass 0 "x" none ["y"]

def chainY : EntityDefinitionClassInfo :=
  { sampleClass EntityDefinitionClassType.BaseClass 1 "y" (some "ydesc") ["z"]
    with size := some DefaultSize }

def chainZ : EntityDefinitionClassInfo :=
  { sampleClass EntityDefinitionClassType.BaseClass 2 "z" (some "zdesc") []
    with color := some ⟨7, 7, 7, 7⟩, size := some ⟨⟨0, 0, 0⟩, ⟨1, 1, 1⟩⟩ }

/-- Concrete cycle used to instantiate C2: `cycA` and `cycB` form a
two-class cycle, `cycC` is a normal additional super class of `cycA`. -/
def cycA : EntityDefinitionClassInfo :=
  sampleClass EntityDefinitionClassType.PointClass 0 "ca" none ["cb", "cc"]

def cycB : EntityDefinitionClassInfo :=
  sampleClass EntityDefinitionClassType.BaseClass 1 "cb" (some "bdesc") ["ca"]

def cycC : EntityDefinitionClassInfo :=
  sampleClass EntityDefinitionClassType.BaseClass 2 "cc" (some "cdesc") []

/-- Concrete properties for instantiating the merge policy: a spawnflags
pair realizing the per-bit merge example, a same-key scalar pair, and a
super-only property. -/
def pdSpawnInh : PropertyDefinition :=
  { key := Spawnflags, type := PropertyDefinitionType.FlagsProperty,
    shortDescription := "", longDescription := "", readOnly := false,
    options := [⟨1, "Option A", "", false⟩] }

def pdSpawnSup : PropertyDefinition :=
  { key := Spawnflags, type := PropertyDefinitionType.FlagsProperty,
    shortDescription := "", longDescription := "", readOnly := false,
    options := [⟨1, "Old A", "", false⟩, ⟨2, "Option B", "", false⟩] }

def pdSpawnMerged : PropertyDefinition :=
  { key := Spawnflags, type := PropertyDefinitionType.FlagsProperty,
    shortDescription := "", longDescription := "", readOnly := false,
    options := [⟨1, "Option A", "", false⟩, ⟨2, "Option B", "", false⟩] }

def pdHealth : PropertyDefinition :=
  { key := "health", type := PropertyDefinitionType.IntegerProperty,
    shortDescription := "inh health", longDescription := "",
    readOnly := false, options := [] }

def pdHealthSup : PropertyDefinition :=
  { key := "health", type := PropertyDefinitionType.IntegerProperty,
    shortDescription := "sup health", longDescription := "",
    readOnly := false, options := [] }

def pdAngle : PropertyDefinition :=
  { key := "angle", type := PropertyDefinitionType.FloatProperty,
    shortDescription := "", longDescription := "", readOnly := false,
    options := [] }

/-- Inheriting and super classes for the merge policy instantiation. -/
def mergeInh : EntityDefinitionClassInfo :=
  { sampleClass EntityDefinitionClassType.PointClass 0 "mi" none []
    with propertyDefinitions := [pdSpawnInh, pdHealth] }

def mergeSup : EntityDefinitionClassInfo :=
  { sampleClass EntityDefinitionClassType.BaseClass 1 "ms" none []
    with propertyDefinitions := [pdSpawnSup, pdHealthSup, pdAngle] }

/-! ### Claims -/

/-- C4: the super class selector takes a single candidate
unconditionally; among several candidates it selects one with the
inheriting class's type when one exists, else (for a non BaseClass
inheriting class) a BaseClass candidate when one exists, and otherwise
selects nothing; and when nothing is selected the resolver reports a
"no matching super class found" error and skips the edge, leaving the
inheriting class untouched by it. -/
theorem C4_selectSuperClass_policy
    (t : EntityDefinitionClassType)
    (cands : List EntityDefinitionClassInfo) :
    (∀ c, cands = [c] → selectSuperClass t cands = some c)
    ∧ (1 < cands.length → (∃ c ∈ cands, c.type = t) →
        ∃ c, selectSuperClass t cands = some c ∧ c ∈ cands ∧ c.type = t)
    ∧ (1 < cands.length → (∀ c ∈ cands, c.type ≠ t) →
        t ≠ EntityDefinitionClassType.BaseClass →
        (∃ c ∈ cands, c.type = EntityDefinitionClassType.BaseClass) →
        ∃ c, selectSuperClass t cands = some c ∧ c ∈ cands
          ∧ c.type = EntityDefinitionClassType.BaseClass)
    ∧ (1 < cands.length → (∀ c ∈ cands, c.type ≠ t) →
        (t = EntityDefinitionClassType.BaseClass
          ∨ ∀ c ∈ cands, c.type ≠ EntityDefinitionClassType.BaseClass) →
        selectSuperClass t cands = none)
    ∧ (∀ (classes : List EntityDefinitionClassInfo) (fuel : Nat)
        (inh : EntityDefinitionClassInfo) (loc : FileLocation) (n : String)
        (rest visited : List String),
        selectSuperClass inh.type (findClassInfos classes n) = none →
        goSuperClasses classes fuel inh loc (n :: rest) visited =
          ((goSuperClasses classes fuel inh loc rest visited).1,
           Diagnostic.error loc ("No matching super class found for '" ++ n ++ "'")
             :: (goSuperClasses classes fuel inh loc rest visited).2)) := by
  refine ⟨?_, ?_, ?_, ?_, ?_⟩
  · intro c hc
    subst hc
    simp [selectSuperClass]
  · intro hlen hex
    have hne : cands.length ≠ 1 := by omega
    rcases find?_eq_some_of_exists (fun c => c.type == t) cands
        (by rcases hex with ⟨c, hc, ht⟩; exact ⟨c, hc, by simp [ht]⟩) with
      ⟨c, hfind, hmem, hp⟩
    refine ⟨c, ?_, hmem, by simpa using hp⟩
    simp [selectSuperClass, hne, hlen, findClassInfoWithType, hfind]
  · intro hlen hnone hnb hex
    have hne : cands.length ≠ 1 := by omega
    have hfindt : cands.find? (fun c => c.type == t) = none := by
      rw [List.find?_eq_none]
      intro c hc
      simpa using hnone c hc
    rcases find?_eq_some_of_exists
        (fun c => c.type == EntityDefinitionClassType.BaseClass) cands
        (by rcases hex with ⟨c, hc, ht⟩; exact ⟨c, hc, by simp [ht]⟩) with
      ⟨c, hfind, hmem, hp⟩
    refine ⟨c, ?_, hmem, by simpa using hp⟩
    simp [selectSuperClass, hne, hlen, findClassInfoWithType, hfindt, hnb, hfind]
  · intro hlen hnone hcase
    have hne : cands.length ≠ 1 := by omega
    have hfindt : cands.find? (fun c => c.type == t) = none := by
      rw [List.find?_eq_none]
      intro c hc
      simpa using hnone c hc
    rcases hcase with hbase | hnob
    · subst hbase
      simp [selectSuperClass, hne, hlen, findClassInfoWithType, hfindt]
    · have hfindb :
          cands.find? (fun c => c.type == EntityDefinitionClassType.BaseClass)
            = none := by
        rw [List.find?_eq_none]
        intro c hc
        simpa using hnob c hc
      by_cases hb : t = EntityDefinitionClassType.BaseClass
      · subst hb
        simp [selectSuperClass, hne, hlen, findClassInfoWithType, hfindt]
      · simp [selectSuperClass, hne, hlen, findClassInfoWithType, hfindt,
          hfindb, hb]
  · intro classes fuel inh loc n rest visited hsel
    simp [goSuperClasses, hsel]


/-- Closed instantiation of the C4 selector policy: a lone candidate is
taken, a same-type candidate beats a BaseClass candidate, the BaseClass
fallback applies to non BaseClass inheritors, a BaseClass inheritor with
no same-type candidate gets nothing, and an unresolvable reference is
reported and skipped. -/
theorem C4_selectSuperClass_policy_witness :
    (selectSuperClass EntityDefinitionClassType.PointClass [samplePoint]
      = some samplePoint)
    ∧ (∃ c, selectSuperClass EntityDefinitionClassType.PointClass
          [sampleBase, samplePoint] = some c
        ∧ c ∈ [sampleBase, samplePoint]
        ∧ c.type = EntityDefinitionClassType.PointClass)
    ∧ (∃ c, selectSuperClass EntityDefinitionClassType.PointClass
          [sampleBrush, sampleBase] = some c
        ∧ c ∈ [sampleBrush, sampleBase]
        ∧ c.type = EntityDefinitionClassType.BaseClass)
    ∧ (selectSuperClass EntityDefinitionClassType.BaseClass
        [samplePoint, sampleBrush] = none)
    ∧ (goSuperClasses [] 1 samplePoint 7 ["q"] [] =
        ((goSuperClasses [] 1 samplePoint 7 [] []).1,
         Diagnostic.error 7 "No matching super class found for 'q'"
           :: (goSuperClasses [] 1 samplePoint 7 [] []).2)) :=
  ⟨(C4_selectSuperClass_policy EntityDefinitionClassType.PointClass
      [samplePoint]).1 samplePoint rfl,
   (C4_selectSuperClass_policy EntityDefinitionClassType.PointClass
      [sampleBase, samplePoint]).2.1 (by decide)
      ⟨samplePoint, by decide, by decide⟩,
   (C4_selectSuperClass_policy EntityDefinitionClassType.PointClass
      [sampleBrush, sampleBase]).2.2.1 (by decide) (by decide) (by decide)
      ⟨sampleBase, by decide, by decide⟩,
   (C4_selectSuperClass_policy EntityDefinitionClassType.BaseClass
      [samplePoint, sampleBrush]).2.2.2.1 (by decide) (by decide)
      (Or.inl rfl),
   (C4_selectSuperClass_policy EntityDefinitionClassType.PointClass []).2.2.2.2
      [] 1 samplePoint 7 "q" [] [] (by decide)⟩

theorem getMask_eq_two_pow (t : EntityDefinitionClassType) :
    getMask t = 2 ^ classTypeBit t := by
  cases t <;> rfl

theorem classTypeBit_injEq (t1 t2 : EntityDefinitionClassType) :
    classTypeBit t1 = classTypeBit t2 ↔ t1 = t2 := by
  cases t1 <;> cases t2 <;> simp [classTypeBit]

theorem testBit_seenOf (acc : List EntityDefinitionClassInfo) (n : String)
    (i : Nat) :
    (seenOf acc n).testBit i = true
      ↔ ∃ a ∈ acc, a.name = n ∧ classTypeBit a.type = i := by
  induction acc with
  | nil => simp [seenOf]
  | cons a rest ih =>
    simp only [seenOf, Nat.testBit_or, Bool.or_eq_true, ih, List.mem_cons]
    constructor
    · rintro (hbit | ⟨b, hb, hbn, hbi⟩)
      · by_cases h : a.name = n
        · rw [if_pos h, getMask_eq_two_pow] at hbit
          by_cases hi : classTypeBit a.type = i
          · exact ⟨a, Or.inl rfl, h, hi⟩
          · rw [Nat.testBit_two_pow_of_ne hi] at hbit
            cases hbit
        · rw [if_neg h, Nat.zero_testBit] at hbit
          cases hbit
      · exact ⟨b, Or.inr hb, hbn, hbi⟩
    · rintro ⟨b, rfl | hb, hbn, hbi⟩
      · left
        rw [if_pos hbn, getMask_eq_two_pow, hbi]
        exact Nat.testBit_two_pow_self
      · exact Or.inr ⟨b, hb, hbn, hbi⟩

theorem getMask_and_ne_zero (t : EntityDefinitionClassType) (s : Nat) :
    getMask t &&& s ≠ 0 ↔ s.testBit (classTypeBit t) = true := by
  rw [getMask_eq_two_pow, Nat.two_pow_and]
  rcases hb : s.testBit (classTypeBit t) with _ | _ <;>
    simp [hb, Nat.pos_iff_ne_zero, Nat.pow_eq_zero]

theorem and_getMask_ne_zero (s : Nat) (t : EntityDefinitionClassType) :
    s &&& getMask t ≠ 0 ↔ s.testBit (classTypeBit t) = true := by
  rw [Nat.land_comm]
  exact getMask_and_ne_zero t s

theorem seenOf_ne_zero (acc : List EntityDefinitionClassInfo) (n : String) :
    seenOf acc n ≠ 0 ↔ ∃ a ∈ acc, a.name = n := by
  constructor
  · intro h
    rcases Nat.ne_zero_implies_bit_true h with ⟨i, hi⟩
    rcases (testBit_seenOf acc n i).mp hi with ⟨a, ha, hn, _⟩
    exact ⟨a, ha, hn⟩
  · rintro ⟨a, ha, hn⟩ h0
    have := (testBit_seenOf acc n (classTypeBit a.type)).mpr ⟨a, ha, hn, rfl⟩
    rw [h0] at this
    simp [Nat.zero_testBit] at this

theorem dup_cond_iff (acc : List EntityDefinitionClassInfo)
    (c : EntityDefinitionClassInfo) :
    getMask c.type &&& seenOf acc c.name ≠ 0
      ↔ ∃ a ∈ acc, a.name = c.name ∧ a.type = c.type := by
  rw [getMask_and_ne_zero, testBit_seenOf]
  constructor
  · rintro ⟨a, ha, hn, hb⟩
    exact ⟨a, ha, hn, (classTypeBit_injEq _ _).mp hb⟩
  · rintro ⟨a, ha, hn, ht⟩
    exact ⟨a, ha, hn, (classTypeBit_injEq _ _).mpr ht⟩

theorem base_cond_iff (acc : List EntityDefinitionClassInfo) (n : String) :
    seenOf acc n &&& getMask EntityDefinitionClassType.BaseClass ≠ 0
      ↔ ∃ a ∈ acc, a.name = n
          ∧ a.type = EntityDefinitionClassType.BaseClass := by
  rw [and_getMask_ne_zero, testBit_seenOf]
  constructor
  · rintro ⟨a, ha, hn, hb⟩
    exact ⟨a, ha, hn, (classTypeBit_injEq _ _).mp hb⟩
  · rintro ⟨a, ha, hn, ht⟩
    exact ⟨a, ha, hn, (classTypeBit_injEq _ _).mpr ht⟩

theorem getMask_base_iff (t : EntityDefinitionClassType) :
    getMask t &&& getMask EntityDefinitionClassType.BaseClass ≠ 0
      ↔ t = EntityDefinitionClassType.BaseClass := by
  cases t <;> decide

theorem seenOf_append (l1 l2 : List EntityDefinitionClassInfo) (n : String) :
    seenOf (l1 ++ l2) n = seenOf l1 n ||| seenOf l2 n := by
  induction l1 with
  | nil => simp [seenOf]
  | cons a rest ih => simp [seenOf, ih, Nat.lor_assoc]

theorem filterGo_eq_spec (l : List EntityDefinitionClassInfo) :
    ∀ (acc : List EntityDefinitionClassInfo) (seen : String → Nat),
    (∀ n, seen n = seenOf acc n) →
    filterRedundantClassesGo seen l = filterRedundantClassesSpecGo acc l := by
  induction l with
  | nil => intro acc seen _; rfl
  | cons c rest ih =>
    intro acc seen h
    by_cases h1 : ∃ a ∈ acc, a.name = c.name ∧ a.type = c.type
    · have h1c : getMask c.type &&& seen c.name ≠ 0 := by
        rw [h, dup_cond_iff]; exact h1
      simp only [filterRedundantClassesGo, filterRedundantClassesSpecGo,
        if_pos h1, if_pos h1c, ih acc seen h]
    · have h1c : ¬getMask c.type &&& seen c.name ≠ 0 := by
        rw [h, dup_cond_iff]; exact h1
      have hiff : (seen c.name &&& getMask EntityDefinitionClassType.BaseClass ≠ 0
            ∨ (seen c.name ≠ 0
                ∧ getMask c.type &&& getMask EntityDefinitionClassType.BaseClass ≠ 0))
          ↔ ((∃ a ∈ acc,
                a.name = c.name ∧ a.type = EntityDefinitionClassType.BaseClass)
              ∨ (c.type = EntityDefinitionClassType.BaseClass
                  ∧ ∃ a ∈ acc, a.name = c.name)) := by
        rw [h, base_cond_iff, seenOf_ne_zero, getMask_base_iff]
        constructor
        · rintro (hx | ⟨hy, hz⟩)
          · exact Or.inl hx
          · exact Or.inr ⟨hz, hy⟩
        · rintro (hx | ⟨hz, hy⟩)
          · exact Or.inl hx
          · exact Or.inr ⟨hy, hz⟩
      by_cases h2 : (∃ a ∈ acc,
            a.name = c.name ∧ a.type = EntityDefinitionClassType.BaseClass)
          ∨ (c.type = EntityDefinitionClassType.BaseClass
              ∧ ∃ a ∈ acc, a.name = c.name)
      · have h2c := hiff.mpr h2
        simp only [filterRedundantClassesGo, filterRedundantClassesSpecGo,
          if_neg h1, if_neg h1c, if_pos h2, if_pos h2c, ih acc seen h]
      · have h2c : ¬(seen c.name &&& getMask EntityDefinitionClassType.BaseClass ≠ 0
            ∨ (seen c.name ≠ 0
                ∧ getMask c.type &&& getMask EntityDefinitionClassType.BaseClass ≠ 0)) :=
          fun hx => h2 (hiff.mp hx)
        have hupd : ∀ n,
            (if n = c.name then seen c.name ||| getMask c.type else seen n)
              = seenOf (acc ++ [c]) n := by
          intro n
          rw [seenOf_append]
          by_cases hn : n = c.name
          · rw [if_pos hn, h, hn]
            simp [seenOf]
          · rw [if_neg hn, h]
            have hz : seenOf [c] n = 0 := by
              simp only [seenOf]
              rw [if_neg (fun hc => hn hc.symm)]
              rfl
            rw [hz]
            simp
        simp only [filterRedundantClassesGo, filterRedundantClassesSpecGo,
          if_neg h1, if_neg h1c, if_neg h2, if_neg h2c,
          ih (acc ++ [c]) _ hupd]

theorem filterGo_sublist (l : List EntityDefinitionClassInfo)
    (seen : String → Nat) :
    (filterRedundantClassesGo seen l).1.Sublist l := by
  induction l generalizing seen with
  | nil => simp [filterRedundantClassesGo]
  | cons c rest ih =>
    simp only [filterRedundantClassesGo]
    split
    · exact (ih seen).cons c
    · split
      · exact (ih seen).cons c
      · exact (ih _).cons₂ c

/-- C5: the redundancy filter is exactly the in-order accepted-list
process the specification describes — each record is dropped with a
duplicate warning when its (name, type) pair was already accepted,
dropped with a redundancy warning when a BaseClass with its name was
accepted or it is itself a BaseClass and anything with its name was
accepted, and appended otherwise — and the accepted records appear in
the output in their original input order. -/
theorem C5_filterRedundantClasses_spec
    (classInfos : List EntityDefinitionClassInfo) :
    filterRedundantClasses classInfos = filterRedundantClassesSpec classInfos
    ∧ (filterRedundantClasses classInfos).1.Sublist classInfos := by
  constructor
  · exact filterGo_eq_spec classInfos [] (fun _ => 0) (fun _ => rfl)
  · exact filterGo_sublist classInfos (fun _ => 0)

/-- The relation every two accepted records of the redundancy filter
satisfy: same-named survivors have different kinds and neither is a
BaseClass. -/
def pairOk (a b : EntityDefinitionClassInfo) : Prop :=
  a.name = b.name →
    a.type ≠ b.type
    ∧ a.type ≠ EntityDefinitionClassType.BaseClass
    ∧ b.type ≠ EntityDefinitionClassType.BaseClass

theorem pairOk_symm : Symmetric pairOk := by
  intro a b hab hname
  rcases hab hname.symm with ⟨h1, h2, h3⟩
  exact ⟨h1.symm, h3, h2⟩

theorem specGo_pairwise (l : List EntityDefinitionClassInfo) :
    ∀ acc : List EntityDefinitionClassInfo,
    (filterRedundantClassesSpecGo acc l).1.Pairwise pairOk
    ∧ (∀ b ∈ (filterRedundantClassesSpecGo acc l).1, ∀ a ∈ acc, pairOk a b) := by
  induction l with
  | nil =>
    intro acc
    simp [filterRedundantClassesSpecGo]
  | cons c rest ih =>
    intro acc
    by_cases h1 : ∃ a ∈ acc, a.name = c.name ∧ a.type = c.type
    · simpa [filterRedundantClassesSpecGo, h1] using ih acc
    · by_cases h2 : (∃ a ∈ acc,
            a.name = c.name ∧ a.type = EntityDefinitionClassType.BaseClass)
          ∨ (c.type = EntityDefinitionClassType.BaseClass
              ∧ ∃ a ∈ acc, a.name = c.name)
      · simpa [filterRedundantClassesSpecGo, h1, h2] using ih acc
      · have hstep : ∀ a ∈ acc, pairOk a c := by
          intro a ha hname
          refine ⟨?_, ?_, ?_⟩
          · intro ht; exact h1 ⟨a, ha, hname, ht⟩
          · intro ht; exact h2 (Or.inl ⟨a, ha, hname, ht⟩)
          · intro ht; exact h2 (Or.inr ⟨ht, a, ha, hname⟩)
        have hout :
            (filterRedundantClassesSpecGo acc (c :: rest)).1
              = c :: (filterRedundantClassesSpecGo (acc ++ [c]) rest).1 := by
          simp [filterRedundantClassesSpecGo, h1, h2]
        rw [hout]
        constructor
        · refine List.Pairwise.cons ?_ (ih (acc ++ [c])).1
          intro b hb
          exact (ih (acc ++ [c])).2 b hb c (by simp)
        · intro b hb a ha
          rcases List.mem_cons.mp hb with rfl | hb'
          · exact hstep a ha
          · exact (ih (acc ++ [c])).2 b hb' a (by simp [ha])

/-- C6: after redundancy filtering, at most one record survives per
(name, type) pair; a surviving BaseClass is the only survivor of its
name; and a PointClass and a BrushClass of the same name may coexist
(shown on a concrete overloaded pair). -/
theorem C6_filter_invariant (classInfos : List EntityDefinitionClassInfo) :
    (filterRedundantClasses classInfos).1.Pairwise
      (fun a b => ¬(a.name = b.name ∧ a.type = b.type))
    ∧ (∀ a ∈ (filterRedundantClasses classInfos).1,
        a.type = EntityDefinitionClassType.BaseClass →
        ∀ b ∈ (filterRedundantClasses classInfos).1, b.name = a.name → b = a)
    ∧ (filterRedundantClasses [samplePoint, sampleBrush]
        = ([samplePoint, sampleBrush], [])
      ∧ samplePoint.name = sampleBrush.name
      ∧ samplePoint.type = EntityDefinitionClassType.PointClass
      ∧ sampleBrush.type = EntityDefinitionClassType.BrushClass) := by
  have heq : filterRedundantClasses classInfos
      = filterRedundantClassesSpecGo [] classInfos :=
    filterGo_eq_spec classInfos [] (fun _ => 0) (fun _ => rfl)
  have hp : (filterRedundantClasses classInfos).1.Pairwise pairOk := by
    rw [heq]; exact (specGo_pairwise classInfos []).1
  refine ⟨?_, ?_, by decide, by decide, by decide, by decide⟩
  · exact hp.imp (fun {a b} hab ⟨hn, ht⟩ => (hab hn).1 ht)
  · intro a ha hbase b hb hname
    by_cases hab : b = a
    · exact hab
    · have := (hp.forall pairOk_symm) ha hb (fun hx => hab hx.symm)
      exact absurd hbase (this hname.symm).2.1

/-- Closed instantiation of the C6 invariant: on the list
`[sampleBase, samplePoint]` the filter keeps only the BaseClass, and the
base-uniqueness conjunct applies to it with all hypotheses discharged
concretely. -/
theorem C6_filter_invariant_witness :
    (filterRedundantClasses [sampleBase, samplePoint]).1 = [sampleBase]
    ∧ sampleBase = sampleBase :=
  ⟨by decide,
   (C6_filter_invariant [sampleBase, samplePoint]).2.1 sampleBase (by decide)
     (by decide) sampleBase (by decide) rfl⟩

/-- The fields of the inheriting class that `inheritAttributes` never
touches. -/
def sameHeader (x y : EntityDefinitionClassInfo) : Prop :=
  x.name = y.name ∧ x.type = y.type ∧ x.location = y.location
    ∧ x.superClasses = y.superClasses

theorem sameHeader_refl (x : EntityDefinitionClassInfo) : sameHeader x x :=
  ⟨rfl, rfl, rfl, rfl⟩

theorem sameHeader_trans {x y z : EntityDefinitionClassInfo}
    (h1 : sameHeader x y) (h2 : sameHeader y z) : sameHeader x z :=
  ⟨h1.1.trans h2.1, h1.2.1.trans h2.2.1, h1.2.2.1.trans h2.2.2.1,
   h1.2.2.2.trans h2.2.2.2⟩

theorem inheritAttributes_sameHeader
    (inh sup : EntityDefinitionClassInfo) :
    sameHeader (inheritAttributes inh sup) inh :=
  ⟨rfl, rfl, rfl, rfl⟩

theorem resolve_sameHeader_aux (fuel : Nat) :
    (∀ (classes : List EntityDefinitionClassInfo)
      (inh sup : EntityDefinitionClassInfo) (visited : List String),
      sameHeader (inheritFromAndRecurse classes fuel inh sup visited).1 inh)
    ∧ (∀ (classes : List EntityDefinitionClassInfo)
      (inh : EntityDefinitionClassInfo) (loc : FileLocation)
      (names visited : List String),
      sameHeader (goSuperClasses classes fuel inh loc names visited).1 inh) := by
  induction fuel with
  | zero =>
    have hgo : ∀ (classes : List EntityDefinitionClassInfo)
        (inh : EntityDefinitionClassInfo) (loc : FileLocation)
        (names visited : List String),
        sameHeader (goSuperClasses classes 0 inh loc names visited).1 inh := by
      intro classes inh loc names visited
      induction names generalizing inh with
      | nil => simp only [goSuperClasses]; exact sameHeader_refl inh
      | cons n rest ihn =>
        simp only [goSuperClasses]
        cases hsel : selectSuperClass inh.type (findClassInfos classes n) with
        | some sc =>
          simp only [inheritFromAndRecurse]
          exact ihn inh
        | none => exact ihn inh
    refine ⟨?_, hgo⟩
    intro classes inh sup visited
    simp only [inheritFromAndRecurse]
    exact sameHeader_refl inh
  | succ f ihf =>
    have hinh : ∀ (classes : List EntityDefinitionClassInfo)
        (inh sup : EntityDefinitionClassInfo) (visited : List String),
        sameHeader (inheritFromAndRecurse classes (f + 1) inh sup visited).1 inh := by
      intro classes inh sup visited
      simp only [inheritFromAndRecurse]
      by_cases hv : sup.name ∈ visited
      · rw [if_pos hv]
        exact sameHeader_refl inh
      · rw [if_neg hv]
        simp only [findSuperClassesAndInheritFrom]
        exact sameHeader_trans (ihf.2 classes _ sup.location sup.superClasses _)
          (inheritAttributes_sameHeader inh sup)
    have hgo : ∀ (classes : List EntityDefinitionClassInfo)
        (inh : EntityDefinitionClassInfo) (loc : FileLocation)
        (names visited : List String),
        sameHeader (goSuperClasses classes (f + 1) inh loc names visited).1 inh := by
      intro classes inh loc names visited
      induction names generalizing inh with
      | nil => simp only [goSuperClasses]; exact sameHeader_refl inh
      | cons n rest ihn =>
        simp only [goSuperClasses]
        cases hsel : selectSuperClass inh.type (findClassInfos classes n) with
        | some sc =>
          exact sameHeader_trans (ihn _) (hinh classes inh sc visited)
        | none => exact ihn inh
    exact ⟨hinh, hgo⟩

theorem resolveInheritanceClass_sameHeader
    (classes : List EntityDefinitionClassInfo)
    (inh : EntityDefinitionClassInfo) :
    sameHeader (resolveInheritanceClass classes inh).1 inh := by
  simp only [resolveInheritanceClass, findSuperClassesAndInheritFrom]
  exact (resolve_sameHeader_aux (classes.length + 1)).2 classes inh
    inh.location inh.superClasses []

theorem resolve_foldl_fst (cl classes : List EntityDefinitionClassInfo)
    (acc : List EntityDefinitionClassInfo × List Diagnostic) :
    (cl.foldl (fun acc c =>
        (acc.1 ++ [(resolveInheritanceClass classes c).1],
         acc.2 ++ (resolveInheritanceClass classes c).2)) acc).1
      = acc.1 ++ cl.map (fun c => (resolveInheritanceClass classes c).1) := by
  induction cl generalizing acc with
  | nil => simp
  | cons c rest ih => simp [ih]

theorem resolve_foldl_snd (cl classes : List EntityDefinitionClassInfo)
    (acc : List EntityDefinitionClassInfo × List Diagnostic) :
    (cl.foldl (fun acc c =>
        (acc.1 ++ [(resolveInheritanceClass classes c).1],
         acc.2 ++ (resolveInheritanceClass classes c).2)) acc).2
      = acc.2 ++ (cl.map (fun c => (resolveInheritanceClass classes c).2)).flatten := by
  induction cl generalizing acc with
  | nil => simp
  | cons c rest ih => simp [ih]

theorem resolveInheritance_fst (classInfos : List EntityDefinitionClassInfo) :
    (resolveInheritance classInfos).1
      = ((filterRedundantClasses classInfos).1.filter
          (fun c => c.type ≠ EntityDefinitionClassType.BaseClass)).map
        (fun c =>
          (resolveInheritanceClass (filterRedundantClasses classInfos).1 c).1) := by
  simp only [resolveInheritance, resolve_foldl_fst]
  rfl

theorem resolveInheritance_not_base (classInfos : List EntityDefinitionClassInfo)
    (c : EntityDefinitionClassInfo) (hc : c ∈ (resolveInheritance classInfos).1) :
    c.type ≠ EntityDefinitionClassType.BaseClass := by
  rw [resolveInheritance_fst] at hc
  rcases List.mem_map.mp hc with ⟨c0, hc0, rfl⟩
  have hh := resolveInheritanceClass_sameHeader
    (filterRedundantClasses classInfos).1 c0
  rw [hh.2.1]
  simpa using (List.mem_filter.mp hc0).2

theorem createDefinition_isSome_of_not_base
    (c : EntityDefinitionClassInfo) (color : Color)
    (h : c.type ≠ EntityDefinitionClassType.BaseClass) :
    ∃ d, createDefinition c color = some d := by
  rw [← Option.isSome_iff_exists]
  cases ht : c.type with
  | PointClass => simp [createDefinition, ht]
  | BrushClass => simp [createDefinition, ht]
  | BaseClass => exact absurd ht h

/-- C7: the materializer never produces a definition from a BaseClass
record (a BaseClass yields nothing, and no BaseClass record reaches
materialization, so every resolved class materializes); and a class with
no color, size or description resolved is materialized with the caller
supplied default color, the ±8 unit box and an empty description. -/
theorem C7_createDefinitions_base_and_defaults
    (classInfos : List EntityDefinitionClassInfo)
    (c : EntityDefinitionClassInfo) (color : Color) :
    (createDefinition c color = none
      ↔ c.type = EntityDefinitionClassType.BaseClass)
    ∧ (c.type = EntityDefinitionClassType.PointClass →
        c.color = none → c.size = none → c.description = none →
        createDefinition c color
          = some (EntityDefinition.point c.name color DefaultSize ""
              c.propertyDefinitions (c.modelDefinition.getD ⟨[]⟩)
              (c.decalDefinition.getD ⟨[]⟩)))
    ∧ DefaultSize = ⟨⟨-8, -8, -8⟩, ⟨8, 8, 8⟩⟩
    ∧ (∀ r ∈ (resolveInheritance classInfos).1,
        r.type ≠ EntityDefinitionClassType.BaseClass)
    ∧ (createDefinitions classInfos color).1.length
        = (resolveInheritance (filterRedundantClasses classInfos).1).1.length := by
  refine ⟨?_, ?_, rfl, fun r hr => resolveInheritance_not_base classInfos r hr, ?_⟩
  · cases ht : c.type <;> simp [createDefinition, ht]
  · intro ht hc hs hd
    simp [createDefinition, ht, hc, hs, hd]
  · have hlen : ∀ (cl : List EntityDefinitionClassInfo),
        (∀ x ∈ cl, x.type ≠ EntityDefinitionClassType.BaseClass) →
        (cl.filterMap (fun x => createDefinition x color)).length = cl.length := by
      intro cl
      induction cl with
      | nil => intro _; rfl
      | cons x rest ih =>
        intro hall
        rcases createDefinition_isSome_of_not_base x color
          (hall x (List.mem_cons_self x rest)) with ⟨d, hd⟩
        simp only [List.filterMap_cons, hd, List.length_cons]
        rw [ih (fun y hy => hall y (List.mem_cons_of_mem x hy))]
    simp only [createDefinitions]
    exact hlen _ (fun x hx =>
      resolveInheritance_not_base (filterRedundantClasses classInfos).1 x hx)

/-- Closed instantiation of C7: the unset point class materializes with
the supplied default color, the ±8 box and the empty description, and
the sole resolved record of a one-class list is not a BaseClass. -/
theorem C7_createDefinitions_base_and_defaults_witness :
    createDefinition samplePoint ⟨1, 2, 3, 4⟩
      = some (EntityDefinition.point samplePoint.name ⟨1, 2, 3, 4⟩ DefaultSize ""
          samplePoint.propertyDefinitions ⟨[]⟩ ⟨[]⟩)
    ∧ (resolveInheritance [samplePoint]).1 = [samplePoint]
    ∧ samplePoint.type ≠ EntityDefinitionClassType.BaseClass := by
  have hres : (resolveInheritance [samplePoint]).1 = [samplePoint] := by
    simp [resolveInheritance, filterRedundantClasses, filterRedundantClassesGo,
      resolveInheritanceClass, findSuperClassesAndInheritFrom, goSuperClasses,
      samplePoint, sampleClass]
  refine ⟨?_, hres, ?_⟩
  · exact (C7_createDefinitions_base_and_defaults [] samplePoint
      ⟨1, 2, 3, 4⟩).2.1 rfl rfl rfl rfl
  · exact (C7_createDefinitions_base_and_defaults [samplePoint] samplePoint
      ⟨1, 2, 3, 4⟩).2.2.2.1 samplePoint
      (by rw [hres]; exact List.mem_singleton.mpr rfl)

/-- C10: a resolved BrushClass record materializes into a brush
definition that keeps only name, color, description and property
definitions; its size, model definition and decal definition are
discarded (the result is invariant under changing them). -/
theorem C10_brush_discards_point_fields
    (c : EntityDefinitionClassInfo) (color : Color)
    (h : c.type = EntityDefinitionClassType.BrushClass) :
    createDefinition c color
      = some (EntityDefinition.brush c.name (c.color.getD color)
          (c.description.getD "") c.propertyDefinitions)
    ∧ (∀ (sz : Option Bbox3) (md : Option ModelDefinition)
        (dd : Option DecalDefinition),
        createDefinition
          { c with size := sz, modelDefinition := md, decalDefinition := dd }
          color = createDefinition c color) := by
  constructor
  · simp [createDefinition, h]
  · intro sz md dd
    simp [createDefinition, h]

/-- Closed instantiation of C10 on a brush class carrying a size, a
model definition and a decal definition: all three are dropped. -/
theorem C10_brush_discards_point_fields_witness :
    createDefinition
      { sampleBrush with
        size := some DefaultSize,
        modelDefinition := some ⟨[3]⟩,
        decalDefinition := some ⟨[4]⟩ } ⟨1, 2, 3, 4⟩
      = some (EntityDefinition.brush sampleBrush.name ⟨1, 2, 3, 4⟩ "" []) :=
  (C10_brush_discards_point_fields
    { sampleBrush with
      size := some DefaultSize,
      modelDefinition := some ⟨[3]⟩,
      decalDefinition := some ⟨[4]⟩ } ⟨1, 2, 3, 4⟩ rfl).1

/-- C9: `parseDefinitions` fails exactly when the upstream parser fails,
propagating the parser's message unchanged with no partial definitions;
on parser success it always returns a success result carrying the
best-effort definition list, with every recoverable issue reported only
through the diagnostics sink. -/
theorem C9_parseDefinitions_failure_propagation
    (p : Except String (List EntityDefinitionClassInfo)) (color : Color) :
    (∀ e, p = Except.error e → parseDefinitions p color = (Except.error e, []))
    ∧ (∀ l, p = Except.ok l →
        parseDefinitions p color
          = (Except.ok (createDefinitions l color).1,
             (createDefinitions l color).2))
    ∧ ((∃ e, (parseDefinitions p color).1 = Except.error e)
        ↔ ∃ e, p = Except.error e) := by
  refine ⟨?_, ?_, ?_⟩
  · rintro e rfl
    rfl
  · rintro l rfl
    rfl
  · cases p with
    | error e => simp [parseDefinitions]
    | ok l => simp [parseDefinitions]

/-- Closed instantiation of C9: an upstream failure is propagated with
its message unchanged and no definitions, while an input exhibiting a
duplicate, a missing super class and a cycle still yields a success
result, with the three issues reported through the sink and the three
surviving non-base classes all materialized. -/
theorem C9_parseDefinitions_failure_propagation_witness :
    parseDefinitions (Except.error "boom") ⟨1, 2, 3, 4⟩
      = (Except.error "boom", [])
    ∧ parseDefinitions (Except.ok demoList) ⟨1, 2, 3, 4⟩
        = (Except.ok (createDefinitions demoList ⟨1, 2, 3, 4⟩).1,
           (createDefinitions demoList ⟨1, 2, 3, 4⟩).2)
    ∧ (createDefinitions demoList ⟨1, 2, 3, 4⟩).2 =
        [Diagnostic.warn 0 "Duplicate class info 'a'",
         Diagnostic.error 1 "No matching super class found for 'nosuch'",
         Diagnostic.error 2 "Entity definition class hierarchy contains a cycle"]
    ∧ (createDefinitions demoList ⟨1, 2, 3, 4⟩).1.length = 3 := by
  refine ⟨(C9_parseDefinitions_failure_propagation (Except.error "boom")
      ⟨1, 2, 3, 4⟩).1 "boom" rfl,
    (C9_parseDefinitions_failure_propagation (Except.ok demoList)
      ⟨1, 2, 3, 4⟩).2.1 demoList rfl, ?_, ?_⟩ <;>
  simp [createDefinitions, resolveInheritance, filterRedundantClasses,
    filterRedundantClassesGo, resolveInheritanceClass,
    findSuperClassesAndInheritFrom, goSuperClasses, inheritFromAndRecurse,
    selectSuperClass, findClassInfos, findClassInfoWithType, inheritAttributes,
    inheritPropertyDefinitions, createDefinition, getMask,
    demoList, demoA, demoM, demoCycA, demoCycB, sampleClass]

theorem goSuperClasses_nil (classes : List EntityDefinitionClassInfo)
    (fuel : Nat) (inh : EntityDefinitionClassInfo) (loc : FileLocation)
    (visited : List String) :
    goSuperClasses classes fuel inh loc [] visited = (inh, []) := by
  simp [goSuperClasses]

theorem goSuperClasses_cons_some {classes : List EntityDefinitionClassInfo}
    {fuel : Nat} {inh sc : EntityDefinitionClassInfo} {loc : FileLocation}
    {n : String} {rest visited : List String}
    (hsel : selectSuperClass inh.type (findClassInfos classes n) = some sc) :
    goSuperClasses classes fuel inh loc (n :: rest) visited =
      ((goSuperClasses classes fuel
          (inheritFromAndRecurse classes fuel inh sc visited).1 loc rest
          visited).1,
       (inheritFromAndRecurse classes fuel inh sc visited).2
         ++ (goSuperClasses classes fuel
              (inheritFromAndRecurse classes fuel inh sc visited).1 loc rest
              visited).2) := by
  simp [goSuperClasses, hsel]

theorem inheritFromAndRecurse_not_visited
    (classes : List EntityDefinitionClassInfo) {fuel : Nat}
    (hf : fuel ≠ 0) (inh sup : EntityDefinitionClassInfo)
    (visited : List String) (h : sup.name ∉ visited) :
    inheritFromAndRecurse classes fuel inh sup visited
      = goSuperClasses classes (fuel - 1) (inheritAttributes inh sup)
          sup.location sup.superClasses (sup.name :: visited) := by
  cases fuel with
  | zero => exact absurd rfl hf
  | succ f => simp [inheritFromAndRecurse, findSuperClassesAndInheritFrom, h]

theorem inheritFromAndRecurse_visited
    (classes : List EntityDefinitionClassInfo) {fuel : Nat}
    (hf : fuel ≠ 0) (inh sup : EntityDefinitionClassInfo)
    (visited : List String) (h : sup.name ∈ visited) :
    inheritFromAndRecurse classes fuel inh sup visited
      = (inh, [Diagnostic.error inh.location
          "Entity definition class hierarchy contains a cycle"]) := by
  cases fuel with
  | zero => exact absurd rfl hf
  | succ f => simp [inheritFromAndRecurse, h]

/-- C1: in a chain X → Y → Z of super class declarations with unique
names and no cycle, where X leaves description, color and size unset,
the resolved X takes each of these attributes from Y when Y sets it and
from Z otherwise: the closer super class wins because its attributes are
merged before recursing into its own super classes. -/
theorem C1_chain_closer_super_wins
    (X Y Z : EntityDefinitionClassInfo)
    (hXY : X.superClasses = [Y.name]) (hYZ : Y.superClasses = [Z.name])
    (hZ : Z.superClasses = [])
    (hxy : X.name ≠ Y.name) (hxz : X.name ≠ Z.name) (hyz : Y.name ≠ Z.name)
    (hd : X.description = none) (hc : X.color = none) (hs : X.size = none) :
    (resolveInheritanceClass [X, Y, Z] X).1.description
        = Y.description.or Z.description
    ∧ (resolveInheritanceClass [X, Y, Z] X).1.color = Y.color.or Z.color
    ∧ (resolveInheritanceClass [X, Y, Z] X).1.size = Y.size.or Z.size
    ∧ (resolveInheritanceClass [X, Y, Z] X).2 = [] := by
  have hfY : findClassInfos [X, Y, Z] Y.name = [Y] := by
    simp [findClassInfos, hxy, Ne.symm hyz]
  have hfZ : findClassInfos [X, Y, Z] Z.name = [Z] := by
    simp [findClassInfos, hxz, hyz]
  have hselY : selectSuperClass X.type (findClassInfos [X, Y, Z] Y.name)
      = some Y := by
    rw [hfY]; rfl
  have hselZ : selectSuperClass (inheritAttributes X Y).type
      (findClassInfos [X, Y, Z] Z.name) = some Z := by
    rw [hfZ]; rfl
  have e1 : resolveInheritanceClass [X, Y, Z] X
      = (inheritAttributes (inheritAttributes X Y) Z, []) := by
    simp only [resolveInheritanceClass, findSuperClassesAndInheritFrom]
    rw [hXY]
    rw [goSuperClasses_cons_some hselY]
    rw [inheritFromAndRecurse_not_visited [X, Y, Z] (by simp) X Y []
      (by simp)]
    simp only [Nat.add_sub_cancel]
    rw [hYZ]
    rw [goSuperClasses_cons_some hselZ]
    rw [inheritFromAndRecurse_not_visited [X, Y, Z] (by simp)
      (inheritAttributes X Y) Z [Y.name]
      (by simpa using Ne.symm hyz)]
    rw [hZ]
    simp [goSuperClasses_nil]
  rw [e1]
  refine ⟨?_, ?_, ?_, rfl⟩
  · cases hy : Y.description <;> simp [inheritAttributes, hd, hy]
  · cases hy : Y.color <;> simp [inheritAttributes, hc, hy]
  · cases hy : Y.size <;> simp [inheritAttributes, hs, hy]

/-- Closed instantiation of C1 on the concrete chain: description and
size come from Y, color falls through to Z, and no diagnostic is
emitted. -/
theorem C1_chain_closer_super_wins_witness :
    (resolveInheritanceClass [chainX, chainY, chainZ] chainX).1.description
        = some "ydesc"
    ∧ (resolveInheritanceClass [chainX, chainY, chainZ] chainX).1.color
        = some ⟨7, 7, 7, 7⟩
    ∧ (resolveInheritanceClass [chainX, chainY, chainZ] chainX).1.size
        = some DefaultSize
    ∧ (resolveInheritanceClass [chainX, chainY, chainZ] chainX).2 = [] := by
  have h := C1_chain_closer_super_wins chainX chainY chainZ rfl rfl rfl
    (by decide) (by decide) (by decide) rfl rfl rfl
  exact ⟨h.1.trans rfl, h.2.1.trans rfl, h.2.2.1.trans rfl, h.2.2.2⟩

theorem inheritAttributes_location (inh sup : EntityDefinitionClassInfo) :
    (inheritAttributes inh sup).location = inh.location := rfl

theorem inheritAttributes_type (inh sup : EntityDefinitionClassInfo) :
    (inheritAttributes inh sup).type = inh.type := rfl

/-- C2: for the cycle A → B → A (with C a further, normal super class of
A), resolving A emits exactly one cycle diagnostic, at A's location; the
cyclic edge back to B is skipped without merging or recursing past it,
so the result is exactly the state reached before that edge — A merged
with B, then with A's own record while revisiting it, then with the
non-cyclic super C (once inside the revisit and once for A's own C
edge), which resolves normally. -/
theorem C2_cycle_reported_once_and_skipped
    (A B C : EntityDefinitionClassInfo)
    (hA : A.superClasses = [B.name, C.name])
    (hB : B.superClasses = [A.name])
    (hC : C.superClasses = [])
    (hab : A.name ≠ B.name) (hac : A.name ≠ C.name) (hbc : B.name ≠ C.name) :
    (resolveInheritanceClass [A, B, C] A).2
      = [Diagnostic.error A.location
          "Entity definition class hierarchy contains a cycle"]
    ∧ (resolveInheritanceClass [A, B, C] A).1
      = inheritAttributes (inheritAttributes (inheritAttributes
          (inheritAttributes A B) A) C) C := by
  have hfA : findClassInfos [A, B, C] A.name = [A] := by
    simp [findClassInfos, Ne.symm hab, Ne.symm hac]
  have hfB : findClassInfos [A, B, C] B.name = [B] := by
    simp [findClassInfos, hab, Ne.symm hbc]
  have hfC : findClassInfos [A, B, C] C.name = [C] := by
    simp [findClassInfos, hac, hbc]
  have e : resolveInheritanceClass [A, B, C] A
      = (inheritAttributes (inheritAttributes (inheritAttributes
            (inheritAttributes A B) A) C) C,
         [Diagnostic.error A.location
            "Entity definition class hierarchy contains a cycle"]) := by
    simp [resolveInheritanceClass, findSuperClassesAndInheritFrom,
      goSuperClasses, inheritFromAndRecurse, selectSuperClass, hfA, hfB, hfC,
      hA, hB, hC, hab, hac, hbc, Ne.symm hab, Ne.symm hac, Ne.symm hbc,
      inheritAttributes_location, inheritAttributes_type]
  rw [e]
  exact ⟨rfl, rfl⟩

/-- Closed instantiation of C2 on the concrete cycle: one diagnostic,
the pre-edge state kept, and the normal super's description inherited
(B's, since B is merged first). -/
theorem C2_cycle_reported_once_and_skipped_witness :
    (resolveInheritanceClass [cycA, cycB, cycC] cycA).2
      = [Diagnostic.error 0
          "Entity definition class hierarchy contains a cycle"]
    ∧ (resolveInheritanceClass [cycA, cycB, cycC] cycA).1
      = inheritAttributes (inheritAttributes (inheritAttributes
          (inheritAttributes cycA cycB) cycA) cycC) cycC
    ∧ (inheritAttributes (inheritAttributes (inheritAttributes
          (inheritAttributes cycA cycB) cycA) cycC) cycC).description
        = some "bdesc" := by
  have h := C2_cycle_reported_once_and_skipped cycA cycB cycC rfl rfl rfl
    (by decide) (by decide) (by decide)
  exact ⟨h.1, h.2, by decide⟩

theorem specGo_id (xs : List EntityDefinitionClassInfo) :
    ∀ acc : List EntityDefinitionClassInfo,
    (∀ x ∈ xs, x.type ≠ EntityDefinitionClassType.BaseClass) →
    xs.Pairwise (fun a b => ¬(a.name = b.name ∧ a.type = b.type)) →
    (∀ a ∈ acc, a.type ≠ EntityDefinitionClassType.BaseClass) →
    (∀ a ∈ acc, ∀ x ∈ xs, ¬(a.name = x.name ∧ a.type = x.type)) →
    filterRedundantClassesSpecGo acc xs = (xs, []) := by
  induction xs with
  | nil => intro acc _ _ _ _; rfl
  | cons c rest ih =>
    intro acc h1 h2 h3 h4
    have hc1 : ¬∃ a ∈ acc, a.name = c.name ∧ a.type = c.type := by
      rintro ⟨a, ha, hn, ht⟩
      exact h4 a ha c (List.mem_cons_self c rest) ⟨hn, ht⟩
    have hc2 : ¬((∃ a ∈ acc,
          a.name = c.name ∧ a.type = EntityDefinitionClassType.BaseClass)
        ∨ (c.type = EntityDefinitionClassType.BaseClass
            ∧ ∃ a ∈ acc, a.name = c.name)) := by
      rintro (⟨a, ha, _, ht⟩ | ⟨ht, _⟩)
      · exact h3 a ha ht
      · exact h1 c (List.mem_cons_self c rest) ht
    have hrest : filterRedundantClassesSpecGo (acc ++ [c]) rest = (rest, []) := by
      refine ih (acc ++ [c]) (fun x hx => h1 x (List.mem_cons_of_mem c hx))
        (List.Pairwise.of_cons h2) ?_ ?_
      · intro a ha
        rcases List.mem_append.mp ha with ha' | ha'
        · exact h3 a ha'
        · rw [List.mem_singleton.mp ha']
          exact h1 c (List.mem_cons_self c rest)
      · intro a ha x hx
        rcases List.mem_append.mp ha with ha' | ha'
        · exact h4 a ha' x (List.mem_cons_of_mem c hx)
        · rw [List.mem_singleton.mp ha']
          exact (List.pairwise_cons.mp h2).1 x hx
    simp [filterRedundantClassesSpecGo, hc1, hc2, hrest]

theorem filterRedundantClasses_id (xs : List EntityDefinitionClassInfo)
    (h1 : ∀ x ∈ xs, x.type ≠ EntityDefinitionClassType.BaseClass)
    (h2 : xs.Pairwise (fun a b => ¬(a.name = b.name ∧ a.type = b.type))) :
    filterRedundantClasses xs = (xs, []) := by
  have heq : filterRedundantClasses xs = filterRedundantClassesSpecGo [] xs :=
    filterGo_eq_spec xs [] (fun _ => 0) (fun _ => rfl)
  rw [heq]
  exact specGo_id xs [] h1 h2 (by simp) (by simp)

theorem resolveInheritanceClass_no_supers
    (classes : List EntityDefinitionClassInfo)
    (c : EntityDefinitionClassInfo) (h : c.superClasses = []) :
    resolveInheritanceClass classes c = (c, []) := by
  simp only [resolveInheritanceClass, findSuperClassesAndInheritFrom, h,
    goSuperClasses]

theorem resolveInheritance_pairwise (l : List EntityDefinitionClassInfo) :
    (resolveInheritance l).1.Pairwise
      (fun a b => ¬(a.name = b.name ∧ a.type = b.type)) := by
  rw [resolveInheritance_fst]
  have hfp : (filterRedundantClasses l).1.Pairwise pairOk := by
    have heq : filterRedundantClasses l = filterRedundantClassesSpecGo [] l :=
      filterGo_eq_spec l [] (fun _ => 0) (fun _ => rfl)
    rw [heq]
    exact (specGo_pairwise l []).1
  have hfilter : ((filterRedundantClasses l).1.filter
      (fun c => c.type ≠ EntityDefinitionClassType.BaseClass)).Pairwise
        pairOk :=
    hfp.sublist (List.filter_sublist _)
  rw [List.pairwise_map]
  refine hfilter.imp ?_
  intro a b hab ⟨hn, ht⟩
  have ha := resolveInheritanceClass_sameHeader (filterRedundantClasses l).1 a
  have hb := resolveInheritanceClass_sameHeader (filterRedundantClasses l).1 b
  have hn' : a.name = b.name := by rw [← ha.1, ← hb.1]; exact hn
  have ht' : a.type = b.type := by rw [← ha.2.1, ← hb.2.1]; exact ht
  exact (hab hn').1 ht'

/-- C8: resolution is idempotent on collision free inputs — feeding the
resolved list back in with every record's super class list cleared
returns it unchanged, with no diagnostics. Cycle freedom is not needed
as a hypothesis: the cleared records declare no super classes, so the
second resolution pass has no edges to follow. -/
theorem C8_resolveInheritance_idempotent
    (l : List EntityDefinitionClassInfo)
    (hnames : (l.map (fun c => c.name)).Nodup) :
    resolveInheritance ((resolveInheritance l).1.map
        (fun c => { c with superClasses := [] }))
      = ((resolveInheritance l).1.map (fun c => { c with superClasses := [] }),
         []) := by
  set cleared := (resolveInheritance l).1.map
    (fun c => { c with superClasses := [] }) with hcl
  have hnb : ∀ x ∈ cleared, x.type ≠ EntityDefinitionClassType.BaseClass := by
    intro x hx
    rcases List.mem_map.mp hx with ⟨c, hc, rfl⟩
    exact resolveInheritance_not_base l c hc
  have hpw : cleared.Pairwise
      (fun a b => ¬(a.name = b.name ∧ a.type = b.type)) := by
    rw [hcl, List.pairwise_map]
    exact (resolveInheritance_pairwise l).imp (fun h => h)
  have hfi : filterRedundantClasses cleared = (cleared, []) :=
    filterRedundantClasses_id cleared hnb hpw
  have hfe : cleared.filter
      (fun c => c.type ≠ EntityDefinitionClassType.BaseClass) = cleared := by
    rw [List.filter_eq_self]
    intro x hx
    simpa using hnb x hx
  have hsup : ∀ x ∈ cleared, x.superClasses = [] := by
    intro x hx
    rcases List.mem_map.mp hx with ⟨c, _, rfl⟩
    rfl
  simp only [resolveInheritance, hfi, hfe]
  have h1 : (cleared.foldl (fun acc c =>
      (acc.1 ++ [(resolveInheritanceClass cleared c).1],
       acc.2 ++ (resolveInheritanceClass cleared c).2))
      ([], ([] : List Diagnostic))).1 = cleared := by
    rw [resolve_foldl_fst]
    rw [List.map_congr_left (fun c hc => congrArg Prod.fst
      (resolveInheritanceClass_no_supers cleared c (hsup c hc)))]
    simp
  have h2 : (cleared.foldl (fun acc c =>
      (acc.1 ++ [(resolveInheritanceClass cleared c).1],
       acc.2 ++ (resolveInheritanceClass cleared c).2))
      ([], ([] : List Diagnostic))).2 = [] := by
    rw [resolve_foldl_snd]
    rw [List.map_congr_left (fun c hc => congrArg Prod.snd
      (resolveInheritanceClass_no_supers cleared c (hsup c hc)))]
    simp
  exact Prod.ext_iff.mpr ⟨h1, h2⟩

/-- Closed instantiation of C8 on the concrete chain: re-resolving its
resolved output with cleared super class lists is the identity. -/
theorem C8_resolveInheritance_idempotent_witness :
    resolveInheritance ((resolveInheritance [chainX, chainY, chainZ]).1.map
        (fun c => { c with superClasses := [] }))
      = ((resolveInheritance [chainX, chainY, chainZ]).1.map
          (fun c => { c with superClasses := [] }), []) :=
  C8_resolveInheritance_idempotent [chainX, chainY, chainZ] (by decide)

theorem mergeSpawnflagOptions_eq_flatten
    (classOpts baseOpts : List FlagsPropertyOption) :
    mergeSpawnflagOptions classOpts baseOpts
      = ((List.range 24).map (spawnflagSlot classOpts baseOpts)).flatten := by
  have hstep : ∀ (l : List Nat) (acc : List FlagsPropertyOption),
      l.foldl (fun acc i =>
        match flagsOption baseOpts (2 ^ i), flagsOption classOpts (2 ^ i) with
        | some b, none => acc ++ [b]
        | _, some c => acc ++ [c]
        | _, _ => acc) acc
      = acc ++ (l.map (spawnflagSlot classOpts baseOpts)).flatten := by
    intro l
    induction l with
    | nil => intro acc; simp
    | cons i rest ih =>
      intro acc
      rw [List.foldl_cons, ih]
      have hone : (match flagsOption baseOpts (2 ^ i),
            flagsOption classOpts (2 ^ i) with
          | some b, none => acc ++ [b]
          | _, some c => acc ++ [c]
          | _, _ => acc)
          = acc ++ spawnflagSlot classOpts baseOpts i := by
        simp only [spawnflagSlot]
        rcases flagsOption baseOpts (2 ^ i) with _ | b <;>
          rcases flagsOption classOpts (2 ^ i) with _ | c <;> simp
      rw [hone]
      simp
  simpa [mergeSpawnflagOptions] using hstep (List.range 24) []

theorem flagsOption_append (o1 o2 : List FlagsPropertyOption) (v : Int) :
    flagsOption (o1 ++ o2) v = (flagsOption o1 v).or (flagsOption o2 v) := by
  simp [flagsOption, List.find?_append]

theorem flagsOption_value {opts : List FlagsPropertyOption} {v : Int}
    {o : FlagsPropertyOption} (h : flagsOption opts v = some o) :
    o.value = v := by
  have := List.find?_some h
  simpa using this

theorem two_pow_ne {i j : Nat} (h : j ≠ i) : ((2 : Int) ^ j) ≠ (2 : Int) ^ i :=
  fun hx => h (pow_right_injective₀ (by norm_num) (by norm_num) hx)

theorem flagsOption_slot_ne (classOpts baseOpts : List FlagsPropertyOption)
    {i j : Nat} (h : j ≠ i) :
    flagsOption (spawnflagSlot classOpts baseOpts j) ((2 : Int) ^ i)
      = none := by
  unfold spawnflagSlot
  rcases hb : flagsOption baseOpts (2 ^ j) with _ | b <;>
    rcases hc : flagsOption classOpts (2 ^ j) with _ | c <;>
    simp [flagsOption]
  · exact fun hx => absurd ((flagsOption_value hc) ▸ hx) (two_pow_ne h)
  · exact fun hx => absurd ((flagsOption_value hb) ▸ hx) (two_pow_ne h)
  · exact fun hx => absurd ((flagsOption_value hc) ▸ hx) (two_pow_ne h)

theorem flagsOption_slot_self (classOpts baseOpts : List FlagsPropertyOption)
    (i : Nat) :
    flagsOption (spawnflagSlot classOpts baseOpts i) ((2 : Int) ^ i)
      = (flagsOption classOpts (2 ^ i)).or (flagsOption baseOpts (2 ^ i)) := by
  unfold spawnflagSlot
  rcases hb : flagsOption baseOpts (2 ^ i) with _ | b <;>
    rcases hc : flagsOption classOpts (2 ^ i) with _ | c <;>
    simp [flagsOption]
  · have := flagsOption_value hc
    simp [this]
  · have := flagsOption_value hb
    simp [this]
  · have := flagsOption_value hc
    simp [this]

theorem flagsOption_flatten_notin
    (classOpts baseOpts : List FlagsPropertyOption) (is : List Nat) (i : Nat)
    (h : i ∉ is) :
    flagsOption ((is.map (spawnflagSlot classOpts baseOpts)).flatten)
      ((2 : Int) ^ i) = none := by
  induction is with
  | nil => simp [flagsOption]
  | cons j rest ih =>
    simp only [List.map_cons, List.flatten_cons, flagsOption_append]
    rw [flagsOption_slot_ne classOpts baseOpts
      (fun hx => h (by rw [← hx]; exact List.mem_cons_self j rest)),
      ih (fun hx => h (List.mem_cons_of_mem j hx))]
    rfl

theorem flagsOption_flatten_mem
    (classOpts baseOpts : List FlagsPropertyOption) (is : List Nat) (i : Nat)
    (hmem : i ∈ is) (hnd : is.Nodup) :
    flagsOption ((is.map (spawnflagSlot classOpts baseOpts)).flatten)
      ((2 : Int) ^ i)
      = (flagsOption classOpts (2 ^ i)).or (flagsOption baseOpts (2 ^ i)) := by
  induction is with
  | nil => cases hmem
  | cons j rest ih =>
    simp only [List.map_cons, List.flatten_cons, flagsOption_append]
    rcases List.mem_cons.mp hmem with rfl | hmem'
    · rw [flagsOption_slot_self,
        flagsOption_flatten_notin classOpts baseOpts rest i
          (List.nodup_cons.mp hnd).1]
      simp
    · have hji : j ≠ i := fun hx =>
        (List.nodup_cons.mp hnd).1 (hx ▸ hmem')
      rw [flagsOption_slot_ne classOpts baseOpts hji,
        ih hmem' (List.nodup_cons.mp hnd).2]
      simp

theorem key_unique {l : List PropertyDefinition}
    (h : (l.map (fun p => p.key)).Nodup) {a b : PropertyDefinition}
    (ha : a ∈ l) (hb : b ∈ l) (hk : a.key = b.key) : a = b :=
  List.inj_on_of_nodup_map h ha hb hk

theorem find?_key_eq_none {l : List PropertyDefinition} {k : String} :
    l.find? (fun a => a.key == k) = none ↔ ∀ a ∈ l, a.key ≠ k := by
  rw [List.find?_eq_none]
  constructor
  · intro h a ha
    simpa using h a ha
  · intro h a ha
    simpa using h a ha

theorem replaceFirstKey_eq_map {l : List PropertyDefinition}
    (h : (l.map (fun p => p.key)).Nodup) {k : String}
    {m : PropertyDefinition} (hm : m.key = k) :
    replaceFirstKey l k m = l.map (fun a => if a.key = k then m else a) := by
  induction l with
  | nil => rfl
  | cons a rest ih =>
    rw [List.map_cons, List.nodup_cons] at h
    by_cases hak : a.key = k
    · rw [replaceFirstKey, if_pos hak, List.map_cons, if_pos hak]
      have : ∀ b ∈ rest, b.key ≠ k := by
        intro b hb hbk
        exact h.1 (by rw [hak, ← hbk]; exact List.mem_map_of_mem _ hb)
      rw [List.map_congr_left (fun b hb => if_neg (this b hb))]
      simp
    · rw [replaceFirstKey, if_neg hak, List.map_cons, if_neg hak, ih h.2]

theorem mergedSlot_nil (a : PropertyDefinition) : mergedSlot [] a = a := rfl

theorem mergedSlot_cons_ne {s : PropertyDefinition}
    {rest : List PropertyDefinition} {a : PropertyDefinition}
    (h : s.key ≠ a.key) :
    mergedSlot (s :: rest) a = mergedSlot rest a := by
  simp only [mergedSlot, List.find?_cons]
  rw [show (s.key == a.key) = false by simpa using h]

theorem mergedSlot_of_no_key {rest : List PropertyDefinition}
    {a : PropertyDefinition} (h : ∀ s ∈ rest, s.key ≠ a.key) :
    mergedSlot rest a = a := by
  simp only [mergedSlot]
  rw [List.find?_eq_none.mpr (fun s hs => by simpa using h s hs)]

theorem mergeAttributes_some_key {a s m : PropertyDefinition}
    (h : mergeAttributes a s = some m) : m.key = a.key := by
  unfold mergeAttributes at h
  split at h
  · cases h
    rfl
  · cases h

theorem find?_key_isNone_congr {l1 l2 : List PropertyDefinition}
    (h : l1.map (fun p => p.key) = l2.map (fun p => p.key)) (k : String) :
    (l1.find? (fun a => a.key == k)).isNone
      = (l2.find? (fun a => a.key == k)).isNone := by
  have haux : ∀ l : List PropertyDefinition,
      (l.find? (fun a => a.key == k)).isNone
        = !((l.map (fun p => p.key)).any (fun x => x == k)) := by
    intro l
    induction l with
    | nil => rfl
    | cons a rest ih =>
      simp only [List.find?_cons, List.map_cons, List.any_cons]
      cases hb : (a.key == k) with
      | true => simp [hb]
      | false => simp [hb, ih]
  rw [haux, haux, h]

theorem inheritPropertyDefinitions_spec (supP : List PropertyDefinition) :
    ∀ inhP : List PropertyDefinition,
    (supP.map (fun p => p.key)).Nodup →
    (inhP.map (fun p => p.key)).Nodup →
    inheritPropertyDefinitions inhP supP
      = inhP.map (mergedSlot supP)
        ++ supP.filter
            (fun s => (inhP.find? (fun a => a.key == s.key)).isNone) := by
  induction supP with
  | nil =>
    intro inhP _ _
    simp only [inheritPropertyDefinitions, List.foldl_nil, List.filter_nil,
      List.append_nil]
    have hmap : inhP.map (mergedSlot []) = inhP.map id :=
      List.map_congr_left (fun a _ => mergedSlot_nil a)
    rw [hmap, List.map_id]
  | cons s rest ih =>
    intro inhP hsup hinh
    rw [List.map_cons, List.nodup_cons] at hsup
    have hsnotin : ∀ t ∈ rest, t.key ≠ s.key := by
      intro t ht htk
      exact hsup.1 (htk ▸ List.mem_map_of_mem _ ht)
    cases hf : inhP.find? (fun a => a.key == s.key) with
    | none =>
      have hsk : ∀ a ∈ inhP, a.key ≠ s.key := find?_key_eq_none.mp hf
      have hstep : inheritPropertyDefinitions inhP (s :: rest)
          = inheritPropertyDefinitions (inhP ++ [s]) rest := by
        simp only [inheritPropertyDefinitions, List.foldl_cons, hf]
      have hinh' : ((inhP ++ [s]).map (fun p => p.key)).Nodup := by
        rw [List.map_append]
        refine List.Nodup.append hinh (List.nodup_singleton _) ?_
        intro x hx hx2
        rcases List.mem_map.mp hx with ⟨a, ha, rfl⟩
        rw [show ([s].map (fun p => p.key)) = [s.key] from rfl] at hx2
        exact hsk a ha (List.mem_singleton.mp hx2)
      rw [hstep, ih (inhP ++ [s]) hsup.2 hinh']
      have hms : mergedSlot rest s = s := mergedSlot_of_no_key hsnotin
      have e1 : (inhP ++ [s]).map (mergedSlot rest)
          = inhP.map (mergedSlot (s :: rest)) ++ [s] := by
        rw [List.map_append]
        congr 1
        · exact List.map_congr_left
            (fun a ha => (mergedSlot_cons_ne (fun h => hsk a ha h.symm)).symm)
        · simp [hms]
      have e2 : rest.filter
            (fun t => ((inhP ++ [s]).find? (fun a => a.key == t.key)).isNone)
          = rest.filter
            (fun t => (inhP.find? (fun a => a.key == t.key)).isNone) := by
        refine List.filter_congr ?_
        intro t ht
        rw [List.find?_append]
        have hnone : [s].find? (fun a => a.key == t.key) = none := by
          simp only [List.find?_cons, List.find?_nil]
          rw [show (s.key == t.key) = false by
            simpa using fun h => (hsnotin t ht) h.symm]
        rw [hnone]
        simp
      have e3 : (s :: rest).filter
            (fun t => (inhP.find? (fun a => a.key == t.key)).isNone)
          = s :: rest.filter
            (fun t => (inhP.find? (fun a => a.key == t.key)).isNone) := by
        rw [List.filter_cons]
        simp [hf]
      rw [e1, e2, e3]
      simp
    | some e =>
      have hek : e.key = s.key := by simpa using List.find?_some hf
      have hemem : e ∈ inhP := List.mem_of_find?_eq_some hf
      have e3 : (s :: rest).filter
            (fun t => (inhP.find? (fun a => a.key == t.key)).isNone)
          = rest.filter
            (fun t => (inhP.find? (fun a => a.key == t.key)).isNone) := by
        rw [List.filter_cons]
        simp [hf]
      cases hm : mergeAttributes e s with
      | some m =>
        have hmk : m.key = s.key := (mergeAttributes_some_key hm).trans hek
        have hstep : inheritPropertyDefinitions inhP (s :: rest)
            = inheritPropertyDefinitions (replaceFirstKey inhP s.key m) rest := by
          simp only [inheritPropertyDefinitions, List.foldl_cons, hf, hm]
        have hrep : replaceFirstKey inhP s.key m
            = inhP.map (fun a => if a.key = s.key then m else a) :=
          replaceFirstKey_eq_map hinh hmk
        have hkeys : ((inhP.map (fun a => if a.key = s.key then m else a)).map
              (fun p => p.key))
            = inhP.map (fun p => p.key) := by
          rw [List.map_map]
          refine List.map_congr_left ?_
          intro a _
          by_cases hak : a.key = s.key
          · simp [Function.comp, hak, hmk]
          · simp [Function.comp, hak]
        have hinh' : (((inhP.map (fun a => if a.key = s.key then m else a)).map
            (fun p => p.key))).Nodup := by
          rw [hkeys]; exact hinh
        rw [hstep, hrep, ih _ hsup.2 hinh']
        have e1 : (inhP.map (fun a => if a.key = s.key then m else a)).map
              (mergedSlot rest)
            = inhP.map (mergedSlot (s :: rest)) := by
          rw [List.map_map]
          refine List.map_congr_left ?_
          intro a ha
          by_cases hak : a.key = s.key
          · have hae : a = e := key_unique hinh ha hemem (hak.trans hek.symm)
            have hL : mergedSlot rest m = m :=
              mergedSlot_of_no_key
                (fun t ht h => hsnotin t ht (h.trans hmk))
            have hR : mergedSlot (s :: rest) a = m := by
              simp only [mergedSlot, List.find?_cons]
              rw [show (s.key == a.key) = true by simp [hak]]
              rw [hae]
              simp [hm]
            simp [Function.comp, hak, hL, hR]
          · have hR : mergedSlot (s :: rest) a = mergedSlot rest a :=
              mergedSlot_cons_ne (fun h => hak h.symm)
            simp [Function.comp, hak, hR]
        have e2 : rest.filter
              (fun t => (((inhP.map (fun a => if a.key = s.key then m else a))).find?
                  (fun a => a.key == t.key)).isNone)
            = rest.filter
              (fun t => (inhP.find? (fun a => a.key == t.key)).isNone) := by
          refine List.filter_congr ?_
          intro t _
          rw [find?_key_isNone_congr hkeys]
        rw [e1, e2, e3]
      | none =>
        have hstep : inheritPropertyDefinitions inhP (s :: rest)
            = inheritPropertyDefinitions inhP rest := by
          simp only [inheritPropertyDefinitions, List.foldl_cons, hf, hm]
        rw [hstep, ih inhP hsup.2 hinh]
        have e1 : inhP.map (mergedSlot rest)
            = inhP.map (mergedSlot (s :: rest)) := by
          refine List.map_congr_left ?_
          intro a ha
          by_cases hak : a.key = s.key
          · have hae : a = e := key_unique hinh ha hemem (hak.trans hek.symm)
            have hL : mergedSlot rest a = a :=
              mergedSlot_of_no_key
                (fun t ht h => hsnotin t ht (h.trans hak))
            have hR : mergedSlot (s :: rest) a = a := by
              simp only [mergedSlot, List.find?_cons]
              rw [show (s.key == a.key) = true by simp [hak]]
              rw [hae]
              simp [hm]
            rw [hL, hR]
          · exact (mergedSlot_cons_ne (fun h => hak h.symm)).symm
        rw [e1, e3]

theorem mem_spawnflagSlot_value {c b : List FlagsPropertyOption} {i : Nat}
    {o : FlagsPropertyOption} (h : o ∈ spawnflagSlot c b i) :
    o.value = (2 : Int) ^ i := by
  unfold spawnflagSlot at h
  rcases hb : flagsOption b (2 ^ i) with _ | x <;>
    rcases hc : flagsOption c (2 ^ i) with _ | y <;>
    rw [hb, hc] at h <;> simp at h
  · exact h ▸ flagsOption_value hc
  · exact h ▸ flagsOption_value hb
  · exact h ▸ flagsOption_value hc

/-- C3: merging one super class's properties into the inheriting class
appends, after all of the inheriting class's own properties and in
declaration order, exactly those super properties whose key is absent;
replaces a slot present on both sides by the 24-position per-bit
spawnflags merge (bit values `1 << 0` through `1 << 23`, the inheriting
class's option winning per bit) when both sides are flags typed with the
reserved spawnflags key; and in every other key-present case keeps the
inheriting class's property unmodified and discards the super's. -/
theorem C3_property_merge_policy
    (inh sup : EntityDefinitionClassInfo)
    (hinh : (inh.propertyDefinitions.map (fun p => p.key)).Nodup)
    (hsup : (sup.propertyDefinitions.map (fun p => p.key)).Nodup) :
    ((inheritAttributes inh sup).propertyDefinitions
        = inh.propertyDefinitions.map (mergedSlot sup.propertyDefinitions)
          ++ sup.propertyDefinitions.filter
              (fun s => (inh.propertyDefinitions.find?
                  (fun a => a.key == s.key)).isNone))
    ∧ (∀ a s : PropertyDefinition,
        a.type = PropertyDefinitionType.FlagsProperty →
        s.type = PropertyDefinitionType.FlagsProperty →
        a.key = Spawnflags → s.key = Spawnflags →
        ∃ m, mergeAttributes a s = some m
          ∧ m.key = Spawnflags
          ∧ (∀ i : Nat, i < 24 →
              flagsOption m.options ((2 : Int) ^ i)
                = (flagsOption a.options ((2 : Int) ^ i)).or
                    (flagsOption s.options ((2 : Int) ^ i)))
          ∧ (∀ o ∈ m.options, ∃ i : Nat, i < 24 ∧ o.value = (2 : Int) ^ i))
    ∧ (∀ a s : PropertyDefinition,
        ¬(s.type = PropertyDefinitionType.FlagsProperty
          ∧ a.type = PropertyDefinitionType.FlagsProperty
          ∧ s.key = Spawnflags ∧ a.key = Spawnflags) →
        mergeAttributes a s = none) := by
  refine ⟨?_, ?_, ?_⟩
  · exact inheritPropertyDefinitions_spec sup.propertyDefinitions
      inh.propertyDefinitions hsup hinh
  · intro a s hat hst hak hsk
    have hsome : mergeAttributes a s
        = some ({ key := a.key
                  type := PropertyDefinitionType.FlagsProperty
                  shortDescription := ""
                  longDescription := ""
                  readOnly := false
                  options := mergeSpawnflagOptions a.options s.options } :
                PropertyDefinition) := by
      rw [mergeAttributes, if_pos ⟨hst, hat, hsk, hak⟩]
    refine ⟨_, hsome, hak, ?_, ?_⟩
    · intro i hi
      rw [mergeSpawnflagOptions_eq_flatten]
      exact flagsOption_flatten_mem a.options s.options (List.range 24) i
        (List.mem_range.mpr hi) (List.nodup_range 24)
    · intro o ho
      rw [mergeSpawnflagOptions_eq_flatten] at ho
      rcases List.mem_flatten.mp ho with ⟨lst, hlst, homem⟩
      rcases List.mem_map.mp hlst with ⟨i, hi, rfl⟩
      exact ⟨i, List.mem_range.mp hi, mem_spawnflagSlot_value homem⟩
  · intro a s hn
    rw [mergeAttributes, if_neg hn]

/-- Closed instantiation of C3: the spawnflags slot is replaced by the
per-bit merge (the inheriting class's "Option A" wins bit value 1, the
super contributes "Option B" at bit value 2), the colliding scalar
property keeps the inheriting class's version, and the super-only
property is appended last; the per-bit existential applies to the
concrete spawnflags pair. -/
theorem C3_property_merge_policy_witness :
    (inheritAttributes mergeInh mergeSup).propertyDefinitions
      = [pdSpawnMerged, pdHealth, pdAngle]
    ∧ (∃ m, mergeAttributes pdSpawnInh pdSpawnSup = some m
        ∧ m.key = Spawnflags
        ∧ (∀ i : Nat, i < 24 →
            flagsOption m.options ((2 : Int) ^ i)
              = (flagsOption pdSpawnInh.options ((2 : Int) ^ i)).or
                  (flagsOption pdSpawnSup.options ((2 : Int) ^ i)))
        ∧ (∀ o ∈ m.options, ∃ i : Nat, i < 24 ∧ o.value = (2 : Int) ^ i))
    ∧ mergeAttributes pdHealth pdHealthSup = none := by
  have h := C3_property_merge_policy mergeInh mergeSup (by decide) (by decide)
  refine ⟨h.1.trans (by decide), ?_, ?_⟩
  · exact h.2.1 pdSpawnInh pdSpawnSup rfl rfl rfl rfl
  · exact h.2.2 pdHealth pdHealthSup (by decide)

end TB
